import Mathlib

/-!
A verification development for the redundans pipeline driver
(`redundans.py`): library classification, the staged pipeline controller,
the scaffolding iterator, and the gap-closing configuration builder.

Numeric statistics reported by the external aligner (insert-size mean,
median, standard deviation) are modelled as exact rationals; counts are
naturals.  Python exceptions (ZeroDivisionError) are modelled by `Option`:
a `none` result marks the run aborting with an uncaught exception.
-/

namespace Redundans

/-- Orientation counts of a paired dataset, as reported by the statistics
collaborator: the number of read pairs mapped in FF, FR, RF and RR
orientation (the `pairs` 4-tuple of `fastq2insert_size`). -/
structure Pairs where
  ff : ℕ
  fr : ℕ
  rf : ℕ
  rr : ℕ
  deriving Repr, DecidableEq

/-- `max(pairs)` over the 4-tuple (Python `max` of a tuple). -/
def Pairs.maxc (p : Pairs) : ℕ := max (max (max p.ff p.fr) p.rf) p.rr

/-- `sum(pairs)` over the 4-tuple. -/
def Pairs.total (p : Pairs) : ℕ := p.ff + p.fr + p.rf + p.rr

/-- `pairs.index(maxc)`: the first index holding the maximal count. -/
def Pairs.maxci (p : Pairs) : ℕ :=
  if p.ff = p.maxc then 0 else if p.fr = p.maxc then 1
  else if p.rf = p.maxc then 2 else 3

/-- The `orientations` tuple `('FF', 'FR', 'RF', 'RR')` of
`get_orientation`. -/
def orientNames : List String := ["FF", "FR", "RF", "RR"]

/-- `get_orientation(pairs, fq1, fq2)`: pick the majority orientation and
report whether the poor-quality warning (majority below 90% of all pairs)
fires.  `100.0 * maxc / sum(pairs)` raises `ZeroDivisionError` when the
counts sum to zero, hence the `none` case.  The fastq file names only feed
the warning text and are omitted. -/
def get_orientation (p : Pairs) : Option (String × Bool) :=
  let maxc := p.maxc
  let maxci := p.maxci
  let orientation := orientNames.getD maxci ""
  if p.total = 0 then none
  else some (orientation, decide ((100 : ℚ) * maxc / p.total < 90))

/-- Spec-side reading of orientation selection (for claim C3): the argmax
of the 4-count vector with ties resolved to the index-first orientation
among FF, FR, RF, RR. -/
def argmaxOrientation (p : Pairs) : String :=
  if p.fr ≤ p.ff ∧ p.rf ≤ p.ff ∧ p.rr ≤ p.ff then "FF"
  else if p.rf ≤ p.fr ∧ p.rr ≤ p.fr then "FR"
  else if p.rr ≤ p.rf then "RF"
  else "RR"

theorem orient_eq_argmax (p : Pairs) :
    orientNames.getD p.maxci "" = argmaxOrientation p := by
  unfold Pairs.maxci argmaxOrientation Pairs.maxc
  rcases p with ⟨a, b, c, d⟩
  simp only
  split_ifs <;> first | rfl | omega

theorem warn_iff (p : Pairs) (h : 0 < p.total) :
    ((100 : ℚ) * p.maxc / p.total < 90) ↔ 10 * p.maxc < 9 * p.total := by
  have hs : (0 : ℚ) < p.total := by exact_mod_cast h
  rw [div_lt_iff₀ hs]
  constructor
  · intro h'
    have h10 : (10 : ℚ) * p.maxc < 9 * p.total := by nlinarith
    exact_mod_cast h10
  · intro h'
    have h10 : (10 : ℚ) * p.maxc < 9 * p.total := by exact_mod_cast h'
    nlinarith

/-- C3: orientation selection always returns the orientation at the argmax
of the 4-count vector, resolving ties to the index-first orientation among
FF, FR, RF, RR, and emits the data-quality warning if and only if the
majority count is below 90% of the total.  Counts (5,95,0,0) yield FR with
no warning; counts (40,40,10,10) yield FF with a warning. -/
theorem get_orientation_argmax_warning (p : Pairs) (h : 0 < p.total) :
    get_orientation p
      = some (argmaxOrientation p, decide (10 * p.maxc < 9 * p.total))
    ∧ get_orientation ⟨5, 95, 0, 0⟩ = some ("FR", false)
    ∧ get_orientation ⟨40, 40, 10, 10⟩ = some ("FF", true) := by
  refine ⟨?_, ?_, ?_⟩
  · unfold get_orientation
    rw [if_neg (by omega), orient_eq_argmax, decide_eq_decide.mpr (warn_iff p h)]
  · unfold get_orientation
    rw [if_neg (by decide), orient_eq_argmax]
    have : ¬ ((100 : ℚ) * Pairs.maxc ⟨5, 95, 0, 0⟩ / Pairs.total ⟨5, 95, 0, 0⟩ < 90) := by
      rw [warn_iff ⟨5, 95, 0, 0⟩ (by decide)]
      decide
    rw [decide_eq_false this]
    rfl
  · unfold get_orientation
    rw [if_neg (by decide), orient_eq_argmax]
    have : ((100 : ℚ) * Pairs.maxc ⟨40, 40, 10, 10⟩ / Pairs.total ⟨40, 40, 10, 10⟩ < 90) := by
      rw [warn_iff ⟨40, 40, 10, 10⟩ (by decide)]
      decide
    rw [decide_eq_true this]
    rfl

/-- Witness for C3 at the concrete count vector (5,95,0,0). -/
theorem get_orientation_argmax_warning_witness :
    0 < Pairs.total ⟨5, 95, 0, 0⟩
    ∧ get_orientation ⟨5, 95, 0, 0⟩
        = some (argmaxOrientation ⟨5, 95, 0, 0⟩,
                decide (10 * Pairs.maxc ⟨5, 95, 0, 0⟩ < 9 * Pairs.total ⟨5, 95, 0, 0⟩)) :=
  ⟨by decide, (get_orientation_argmax_warning ⟨5, 95, 0, 0⟩ (by decide)).1⟩

/-- One raw paired dataset together with the per-library statistics the
external collaborator (`fastq2insert_size`) reported for it: the entry
`(fq1, fq2, ismedian, ismean, isstd, pairs)` of `libdata`.  File handles
are identified by the file name that was opened. -/
structure Dataset where
  fq1 : String
  fq2 : String
  ismedian : ℚ
  ismean : ℚ
  isstd : ℚ
  pairs : Pairs
  deriving Repr, DecidableEq

instance : Inhabited Dataset := ⟨⟨"", "", 0, 0, 0, ⟨0, 0, 0, 0⟩⟩⟩

/-- `sorted(libdata, key=lambda x: x[3])`: the datasets sorted by mean
insert size ascending (Python `sorted` is a stable merge sort). -/
def sortByMean (libdata : List Dataset) : List Dataset :=
  libdata.mergeSort (fun a b => a.ismean ≤ b.ismean)

/-- One library set of `get_libraries`: the six parallel lists
`[libnames, libFs, libRs, orientations, libIS, libISStDev]` appended by
the classification loop. -/
structure LibSet where
  libnames : List String
  libFs : List String
  libRs : List String
  orients : List String
  libIS : List ℤ
  libISStDev : List ℚ
  deriving Repr, DecidableEq

/-- The freshly appended empty library set `[[], [], [], [], [], []]`. -/
def emptyLib : LibSet := ⟨[], [], [], [], [], []⟩

/-- The library name `"lib%s" % i`. -/
def libLabel (i : ℕ) : String := "lib" ++ toString i

/-- The stored stdev fraction: `stdfrac = isstd / ismean`, set to `1.0`
when above `1` (SSPACE accepts only 0-1.0).  Total only for
`ismean ≠ 0`; the caller checks that before using this. -/
def stdfracOf (d : Dataset) : ℚ :=
  let stdfrac := d.isstd / d.ismean
  if stdfrac > 1 then 1 else stdfrac

/-- The loop body of `get_libraries` appending dataset `d` as library
number `i` to library set `s`: orientation vote, `int(ismean)` and the
clamped stdev fraction.  `none` models the uncaught `ZeroDivisionError`
raised by `get_orientation` on an all-zero count vector or by
`isstd / ismean` on a zero mean insert. -/
def addLib (s : LibSet) (i : ℕ) (d : Dataset) : Option LibSet :=
  match get_orientation d.pairs with
  | none => none
  | some (orientation, _warn) =>
    if d.ismean = 0 then none
    else some { libnames := s.libnames ++ [libLabel i],
                libFs := s.libFs ++ [d.fq1],
                libRs := s.libRs ++ [d.fq2],
                orients := s.orients ++ [orientation],
                libIS := s.libIS ++ [⌊d.ismean⌋],
                libISStDev := s.libISStDev ++ [stdfracOf d] }

/-- The classification loop of `get_libraries` over the sorted datasets.
`cur` is the most recently opened library set `libraries[-1]`, `i` the
running library counter.  A new set is opened whenever
`ismedian > 1.5 * libraries[-1][4][0]`, i.e. the current median insert
exceeds 1.5 times the first mean insert recorded in the open set. -/
def glAux : LibSet → ℕ → List Dataset → Option (List LibSet)
  | cur, _, [] => some [cur]
  | cur, i, d :: rest =>
    if d.ismedian > 1.5 * ((cur.libIS.headI : ℤ) : ℚ) then
      match addLib emptyLib 1 d with
      | none => none
      | some s =>
        match glAux s 2 rest with
        | none => none
        | some r => some (cur :: r)
    else
      match addLib cur i d with
      | none => none
      | some s => glAux s (i + 1) rest

/-- `get_libraries(fastq, fasta, mapq, threads, limit, verbose)` reduced to
its own decision content: the datasets (with their collaborator-reported
statistics) are sorted by mean insert ascending and greedily grouped into
library sets. -/
def get_libraries (libdata : List Dataset) : Option (List LibSet) :=
  match sortByMean libdata with
  | [] => some []
  | d :: rest =>
    match addLib emptyLib 1 d with
    | none => none
    | some s => glAux s 2 rest

/-- Proof-side mirror of the grouping loop, remembering the datasets of
each group instead of the six projected lists. -/
def clusterAux : List Dataset → List Dataset → List (List Dataset)
  | cur, [] => [cur]
  | cur, d :: rest =>
    if d.ismedian > 1.5 * ((⌊cur.headI.ismean⌋ : ℤ) : ℚ) then
      cur :: clusterAux [d] rest
    else clusterAux (cur ++ [d]) rest

/-- The grouping induced by the classification loop on a sorted dataset
list. -/
def cluster : List Dataset → List (List Dataset)
  | [] => []
  | d :: rest => clusterAux [d] rest

/-- The library set a group of datasets projects to: names count from 1
inside each set, the remaining five lists are per-dataset images. -/
def setOfGroup (g : List Dataset) : LibSet :=
  { libnames := (List.range g.length).map (fun k => libLabel (k + 1)),
    libFs := g.map Dataset.fq1,
    libRs := g.map Dataset.fq2,
    orients := g.map (fun d => orientNames.getD d.pairs.maxci ""),
    libIS := g.map (fun d => ⌊d.ismean⌋),
    libISStDev := g.map stdfracOf }

/-- A dataset on which the classification loop does not raise: its
orientation counts sum to a positive number and its mean insert is
nonzero. -/
def Classifiable (d : Dataset) : Prop := d.pairs.total ≠ 0 ∧ d.ismean ≠ 0

instance (d : Dataset) : Decidable (Classifiable d) := by
  unfold Classifiable
  infer_instance

/-- Appending a classifiable dataset never raises, and the appended fields
are the per-dataset projections. -/
theorem addLib_eq (s : LibSet) (i : ℕ) (d : Dataset) (h : Classifiable d) :
    addLib s i d
      = some { libnames := s.libnames ++ [libLabel i],
               libFs := s.libFs ++ [d.fq1],
               libRs := s.libRs ++ [d.fq2],
               orients := s.orients ++ [orientNames.getD d.pairs.maxci ""],
               libIS := s.libIS ++ [⌊d.ismean⌋],
               libISStDev := s.libISStDev ++ [stdfracOf d] } := by
  unfold addLib get_orientation
  rw [if_neg h.1]
  simp only [Option.some.injEq]
  rw [if_neg h.2]

theorem setOfGroup_append (g : List Dataset) (d : Dataset) :
    setOfGroup (g ++ [d])
      = { libnames := (setOfGroup g).libnames ++ [libLabel (g.length + 1)],
          libFs := (setOfGroup g).libFs ++ [d.fq1],
          libRs := (setOfGroup g).libRs ++ [d.fq2],
          orients := (setOfGroup g).orients ++ [orientNames.getD d.pairs.maxci ""],
          libIS := (setOfGroup g).libIS ++ [⌊d.ismean⌋],
          libISStDev := (setOfGroup g).libISStDev ++ [stdfracOf d] } := by
  unfold setOfGroup
  simp [List.range_succ]

theorem headI_map_ismean (g : List Dataset) (hg : g ≠ []) :
    (g.map (fun d => ⌊d.ismean⌋)).headI = ⌊g.headI.ismean⌋ := by
  cases g with
  | nil => exact absurd rfl hg
  | cons a t => rfl

/-- The classification loop agrees with its proof-side mirror on
exception-free inputs. -/
theorem glAux_eq_cluster :
    ∀ (rest g : List Dataset), g ≠ [] → (∀ d ∈ rest, Classifiable d) →
      glAux (setOfGroup g) (g.length + 1) rest
        = some ((clusterAux g rest).map setOfGroup)
  | [], g, _, _ => by simp [glAux, clusterAux]
  | d :: rest, g, hg, hc => by
    have hd : Classifiable d := hc d (by simp)
    have hrest : ∀ x ∈ rest, Classifiable x := fun x hx => hc x (by simp [hx])
    unfold glAux clusterAux
    rw [show (setOfGroup g).libIS = g.map (fun d => ⌊d.ismean⌋) from rfl,
        headI_map_ismean g hg]
    by_cases hcond : d.ismedian > 1.5 * ((⌊g.headI.ismean⌋ : ℤ) : ℚ)
    · rw [if_pos hcond, if_pos hcond]
      rw [show addLib emptyLib 1 d
            = some (setOfGroup [d]) from by rw [addLib_eq emptyLib 1 d hd]; rfl]
      dsimp only
      rw [show (2 : ℕ) = [d].length + 1 from rfl]
      rw [glAux_eq_cluster rest [d] (by simp) hrest]
      simp
    · rw [if_neg hcond, if_neg hcond]
      rw [addLib_eq (setOfGroup g) (g.length + 1) d hd]
      rw [show ({ libnames := (setOfGroup g).libnames ++ [libLabel (g.length + 1)],
                  libFs := (setOfGroup g).libFs ++ [d.fq1],
                  libRs := (setOfGroup g).libRs ++ [d.fq2],
                  orients := (setOfGroup g).orients ++ [orientNames.getD d.pairs.maxci ""],
                  libIS := (setOfGroup g).libIS ++ [⌊d.ismean⌋],
                  libISStDev := (setOfGroup g).libISStDev ++ [stdfracOf d] } : LibSet)
            = setOfGroup (g ++ [d]) from (setOfGroup_append g d).symm]
      dsimp only
      rw [show g.length + 1 + 1 = (g ++ [d]).length + 1 from by simp]
      exact glAux_eq_cluster rest (g ++ [d]) (by simp) hrest

/-- On exception-free inputs, `get_libraries` returns exactly the greedy
grouping of the mean-sorted datasets, each group projected to its six
lists. -/
theorem get_libraries_eq (libdata : List Dataset)
    (h : ∀ d ∈ libdata, Classifiable d) :
    get_libraries libdata = some ((cluster (sortByMean libdata)).map setOfGroup) := by
  have hmem : ∀ d ∈ sortByMean libdata, Classifiable d := by
    intro d hd
    exact h d ((List.mergeSort_perm libdata _).mem_iff.mp hd)
  unfold get_libraries cluster
  cases hs : sortByMean libdata with
  | nil => rfl
  | cons d rest =>
    have hd : Classifiable d := hmem d (by rw [hs]; simp)
    have hrest : ∀ x ∈ rest, Classifiable x := by
      intro x hx
      exact hmem x (by rw [hs]; simp [hx])
    dsimp only
    rw [show addLib emptyLib 1 d
          = some (setOfGroup [d]) from by rw [addLib_eq emptyLib 1 d hd]; rfl]
    rw [show (2 : ℕ) = [d].length + 1 from rfl]
    exact glAux_eq_cluster rest [d] (by simp) hrest

/-- The groups produced by the loop concatenate back to its input: no
dataset is dropped, duplicated or reordered. -/
theorem clusterAux_join :
    ∀ (rest g : List Dataset), (clusterAux g rest).flatten = g ++ rest
  | [], g => by simp [clusterAux]
  | d :: rest, g => by
    unfold clusterAux
    by_cases hcond : d.ismedian > 1.5 * ((⌊g.headI.ismean⌋ : ℤ) : ℚ)
    · rw [if_pos hcond]
      simp [clusterAux_join rest [d]]
    · rw [if_neg hcond]
      rw [clusterAux_join rest (g ++ [d])]
      simp

theorem cluster_join (l : List Dataset) : (cluster l).flatten = l := by
  cases l with
  | nil => rfl
  | cons d rest => simpa using clusterAux_join rest [d]

/-- Every produced group is nonempty. -/
theorem clusterAux_ne_nil :
    ∀ (rest g : List Dataset), g ≠ [] → ∀ g' ∈ clusterAux g rest, g' ≠ []
  | [], g, hg => by
    intro g' hg'
    simp only [clusterAux, List.mem_singleton] at hg'
    simpa [hg'] using hg
  | d :: rest, g, hg => by
    intro g' hg'
    unfold clusterAux at hg'
    by_cases hcond : d.ismedian > 1.5 * ((⌊g.headI.ismean⌋ : ℤ) : ℚ)
    · rw [if_pos hcond] at hg'
      rcases List.mem_cons.mp hg' with h | h
      · simpa [h] using hg
      · exact clusterAux_ne_nil rest [d] (by simp) g' h
    · rw [if_neg hcond] at hg'
      exact clusterAux_ne_nil rest (g ++ [d]) (by simp) g' hg'

theorem cluster_ne_nil (l : List Dataset) : ∀ g ∈ cluster l, g ≠ [] := by
  cases l with
  | nil => simp [cluster]
  | cons d rest => exact clusterAux_ne_nil rest [d] (by simp)

/-- The head of the first produced group is the head of the open group. -/
theorem clusterAux_headI_headI :
    ∀ (rest g : List Dataset), g ≠ [] →
      ((clusterAux g rest).headI).headI = g.headI
  | [], g, _ => by simp [clusterAux]
  | d :: rest, g, hg => by
    unfold clusterAux
    by_cases hcond : d.ismedian > 1.5 * ((⌊g.headI.ismean⌋ : ℤ) : ℚ)
    · rw [if_pos hcond]
      rfl
    · rw [if_neg hcond]
      rw [clusterAux_headI_headI rest (g ++ [d]) (by simp)]
      cases g with
      | nil => exact absurd rfl hg
      | cons a t => rfl

theorem clusterAux_ne_nil_list :
    ∀ (rest g : List Dataset), clusterAux g rest ≠ []
  | [], g => by simp [clusterAux]
  | d :: rest, g => by
    unfold clusterAux
    by_cases hcond : d.ismedian > 1.5 * ((⌊g.headI.ismean⌋ : ℤ) : ℚ)
    · rw [if_pos hcond]
      simp
    · rw [if_neg hcond]
      exact clusterAux_ne_nil_list rest (g ++ [d])

/-- Each later member of a group did not trigger the new-set condition
against the first recorded mean insert of its own group; consecutive
groups are separated by a member that did. -/
theorem clusterAux_rule :
    ∀ (rest g : List Dataset), g ≠ [] →
      (∀ d ∈ g.tail, ¬ (d.ismedian > 1.5 * ((⌊g.headI.ismean⌋ : ℤ) : ℚ))) →
      (∀ g' ∈ clusterAux g rest,
        ∀ d ∈ g'.tail, ¬ (d.ismedian > 1.5 * ((⌊g'.headI.ismean⌋ : ℤ) : ℚ)))
      ∧ List.Chain'
          (fun g₁ g₂ => g₂.headI.ismedian > 1.5 * ((⌊g₁.headI.ismean⌋ : ℤ) : ℚ))
          (clusterAux g rest)
  | [], g, hg, hcur => by
    constructor
    · intro g' hg'
      simp only [clusterAux, List.mem_singleton] at hg'
      simpa [hg'] using hcur
    · simp [clusterAux]
  | d :: rest, g, hg, hcur => by
    unfold clusterAux
    by_cases hcond : d.ismedian > 1.5 * ((⌊g.headI.ismean⌋ : ℤ) : ℚ)
    · rw [if_pos hcond]
      have ih := clusterAux_rule rest [d] (by simp) (by simp)
      constructor
      · intro g' hg'
        rcases List.mem_cons.mp hg' with h | h
        · subst h
          exact hcur
        · exact ih.1 g' h
      · rw [List.chain'_cons']
        refine ⟨?_, ih.2⟩
        intro y hy
        have hne := clusterAux_ne_nil_list rest [d]
        have hhead : ((clusterAux [d] rest).headI).headI = d := by
          simpa using clusterAux_headI_headI rest [d] (by simp)
        cases hL : clusterAux [d] rest with
        | nil => exact absurd hL hne
        | cons a t =>
          rw [hL] at hy hhead
          simp only [List.head?_cons, Option.mem_def, Option.some.injEq] at hy
          subst hy
          simp only [List.headI_cons] at hhead
          rw [hhead]
          exact hcond
    · rw [if_neg hcond]
      apply clusterAux_rule rest (g ++ [d]) (by simp)
      intro x hx
      have hhead : (g ++ [d]).headI = g.headI := by
        cases g with
        | nil => exact absurd rfl hg
        | cons a t => rfl
      rw [hhead]
      have htail : (g ++ [d]).tail = g.tail ++ [d] := by
        cases g with
        | nil => exact absurd rfl hg
        | cons a t => rfl
      rw [htail] at hx
      rcases List.mem_append.mp hx with h | h
      · exact hcur x h
      · rw [List.mem_singleton] at h
        subst h
        exact hcond

theorem cluster_rule (l : List Dataset) :
    (∀ g ∈ cluster l, ∀ d ∈ g.tail,
      ¬ (d.ismedian > 1.5 * ((⌊g.headI.ismean⌋ : ℤ) : ℚ)))
    ∧ List.Chain'
        (fun g₁ g₂ => g₂.headI.ismedian > 1.5 * ((⌊g₁.headI.ismean⌋ : ℤ) : ℚ))
        (cluster l) := by
  cases l with
  | nil => simp [cluster]
  | cons d rest => exact clusterAux_rule rest [d] (by simp) (by simp)

theorem sortByMean_perm (l : List Dataset) : (sortByMean l).Perm l :=
  List.mergeSort_perm l _

theorem sortByMean_sorted (l : List Dataset) :
    List.Pairwise (fun a b => a.ismean ≤ b.ismean) (sortByMean l) := by
  have h := @List.sorted_mergeSort Dataset
    (fun a b : Dataset => decide (a.ismean ≤ b.ismean))
    (fun a b c h₁ h₂ => by
      simp only [decide_eq_true_eq] at *
      exact le_trans h₁ h₂)
    (fun a b => by
      simp only [Bool.or_eq_true, decide_eq_true_eq]
      exact le_total a.ismean b.ismean)
    l
  exact h.imp (fun hab => by simpa using hab)

/-- Taking the head of each nonempty group picks a sublist of the
concatenation. -/
theorem map_headI_sublist :
    ∀ (gs : List (List Dataset)), (∀ g ∈ gs, g ≠ []) →
      (gs.map List.headI).Sublist gs.flatten
  | [], _ => by simp
  | g :: gs, h => by
    cases hg : g with
    | nil => exact absurd hg (h g (by simp))
    | cons a t =>
      simp only [List.map_cons, List.flatten_cons, hg, List.headI_cons,
        List.cons_append]
      exact (map_headI_sublist gs (fun x hx => h x (by simp [hx]))).trans
        (List.sublist_append_right t gs.flatten) |>.cons₂ a

/-- The first recorded mean inserts of the produced groups ascend. -/
theorem cluster_heads_sorted (l : List Dataset)
    (hs : List.Pairwise (fun a b => a.ismean ≤ b.ismean) l) :
    List.Pairwise (· ≤ ·)
      ((cluster l).map (fun g => (⌊g.headI.ismean⌋ : ℤ))) := by
  have hflat : (cluster l).flatten = l := cluster_join l
  have hne := cluster_ne_nil l
  have hsub := map_headI_sublist (cluster l) hne
  rw [hflat] at hsub
  have hheads : List.Pairwise (fun a b : Dataset => a.ismean ≤ b.ismean)
      ((cluster l).map List.headI) := hs.sublist hsub
  rw [List.pairwise_map] at hheads
  rw [List.pairwise_map]
  exact hheads.imp (fun hab => Int.floor_le_floor hab)

/-- Scenario dataset with mean/median insert 300. -/
def dsA : Dataset := ⟨"s_1.fq", "s_2.fq", 300, 300, 30, ⟨0, 100, 0, 0⟩⟩

/-- Scenario dataset with mean/median insert 305. -/
def dsB : Dataset := ⟨"s_3.fq", "s_4.fq", 305, 305, 30, ⟨0, 100, 0, 0⟩⟩

/-- Scenario dataset with mean/median insert 1200. -/
def dsC : Dataset := ⟨"s_5.fq", "s_6.fq", 1200, 1200, 120, ⟨0, 100, 0, 0⟩⟩

theorem scenario_sort : sortByMean [dsA, dsB, dsC] = [dsA, dsB, dsC] :=
  List.mergeSort_of_sorted (by decide)

theorem scenario_cluster :
    cluster (sortByMean [dsA, dsB, dsC]) = [[dsA, dsB], [dsC]] := by
  rw [scenario_sort]
  show clusterAux [dsA] [dsB, dsC] = _
  unfold clusterAux
  rw [if_neg (by norm_num [dsA, dsB])]
  show clusterAux [dsA, dsB] [dsC] = _
  unfold clusterAux
  rw [if_pos (by norm_num [dsA, dsC])]
  rfl

/-- C1: the Library Classifier consumes datasets in ascending mean-insert
order and opens a new LibrarySet exactly when no set exists yet or the
current dataset's median insert exceeds 1.5 times the first recorded mean
insert of the most recently opened set; datasets with means 300 and 305
and a third with mean/median 1200 cluster into the two sets
[{300,305},{1200}]. -/
theorem get_libraries_grouping_rule (libdata : List Dataset)
    (h : ∀ d ∈ libdata, Classifiable d) :
    get_libraries libdata = some ((cluster (sortByMean libdata)).map setOfGroup)
    ∧ (∀ g ∈ cluster (sortByMean libdata), ∀ d ∈ g.tail,
        ¬ (d.ismedian > 1.5 * ((⌊g.headI.ismean⌋ : ℤ) : ℚ)))
    ∧ List.Chain'
        (fun g₁ g₂ => g₂.headI.ismedian > 1.5 * ((⌊g₁.headI.ismean⌋ : ℤ) : ℚ))
        (cluster (sortByMean libdata))
    ∧ Option.map (fun ls => ls.map LibSet.libIS) (get_libraries [dsA, dsB, dsC])
        = some [[300, 305], [1200]] := by
  refine ⟨get_libraries_eq libdata h, (cluster_rule (sortByMean libdata)).1,
    (cluster_rule (sortByMean libdata)).2, ?_⟩
  rw [get_libraries_eq [dsA, dsB, dsC] (by decide), scenario_cluster]
  simp [setOfGroup, dsA, dsB, dsC]

/-- Witness for C1 at a concrete singleton input. -/
theorem get_libraries_grouping_rule_witness :
    (∀ d ∈ [dsA], Classifiable d)
    ∧ get_libraries [dsA] = some ((cluster (sortByMean [dsA])).map setOfGroup) :=
  ⟨by decide, (get_libraries_grouping_rule [dsA] (by decide)).1⟩

/-- C8: on every nonempty input, the classifier output partitions the
input datasets — the produced groups are nonempty, concatenate to a
permutation of the input, and the sets are ordered ascending by the first
recorded mean insert of each set. -/
theorem get_libraries_partition (libdata : List Dataset) (_hne : libdata ≠ [])
    (h : ∀ d ∈ libdata, Classifiable d) :
    get_libraries libdata = some ((cluster (sortByMean libdata)).map setOfGroup)
    ∧ ((cluster (sortByMean libdata)).flatten).Perm libdata
    ∧ (∀ g ∈ cluster (sortByMean libdata), g ≠ [])
    ∧ List.Pairwise (· ≤ ·)
        (((cluster (sortByMean libdata)).map setOfGroup).map
          (fun s => s.libIS.headI)) := by
  refine ⟨get_libraries_eq libdata h, ?_, cluster_ne_nil _, ?_⟩
  · rw [cluster_join]
    exact sortByMean_perm libdata
  · have hs := cluster_heads_sorted (sortByMean libdata) (sortByMean_sorted libdata)
    rw [List.map_map]
    have heq : ((cluster (sortByMean libdata)).map
          ((fun s => s.libIS.headI) ∘ setOfGroup))
        = (cluster (sortByMean libdata)).map (fun g => (⌊g.headI.ismean⌋ : ℤ)) :=
      List.map_congr_left (fun g hg =>
        show (setOfGroup g).libIS.headI = ⌊g.headI.ismean⌋ from
          headI_map_ismean g (cluster_ne_nil _ g hg))
    rw [heq]
    exact hs

/-- Witness for C8 at a concrete two-dataset input. -/
theorem get_libraries_partition_witness :
    ([dsA, dsC] ≠ [] ∧ ∀ d ∈ [dsA, dsC], Classifiable d)
    ∧ ((cluster (sortByMean [dsA, dsC])).flatten).Perm [dsA, dsC] :=
  ⟨⟨by decide, by decide⟩,
    (get_libraries_partition [dsA, dsC] (by decide) (by decide)).2.1⟩

/-- C7: for every produced LibrarySet entry the stored stdDevFraction is
`stdDev/mean` clamped to at most 1, hence lies in `[0,1]` whenever the
reported standard deviation is nonnegative and the mean is positive (for
all ratios, including ratios above 1). -/
theorem get_libraries_stdfrac_clamped (libdata : List Dataset)
    (h : ∀ d ∈ libdata, Classifiable d)
    (hpos : ∀ d ∈ libdata, 0 ≤ d.isstd ∧ 0 < d.ismean) :
    (∀ ls, get_libraries libdata = some ls →
      ∀ s ∈ ls, ∀ f ∈ s.libISStDev, 0 ≤ f ∧ f ≤ 1)
    ∧ (∀ d : Dataset, stdfracOf d = min (d.isstd / d.ismean) 1) := by
  constructor
  · intro ls hls s hsmem f hf
    rw [get_libraries_eq libdata h] at hls
    injection hls with hls
    subst hls
    rcases List.mem_map.mp hsmem with ⟨g, hg, rfl⟩
    rcases List.mem_map.mp hf with ⟨d, hd, rfl⟩
    have hdl : d ∈ libdata := by
      have : d ∈ (cluster (sortByMean libdata)).flatten :=
        List.mem_flatten.mpr ⟨g, hg, hd⟩
      rw [cluster_join] at this
      exact (sortByMean_perm libdata).mem_iff.mp this
    rcases hpos d hdl with ⟨hstd, hmean⟩
    have hratio : 0 ≤ d.isstd / d.ismean := div_nonneg hstd hmean.le
    unfold stdfracOf
    by_cases hgt : d.isstd / d.ismean > 1
    · rw [if_pos hgt]
      norm_num
    · rw [if_neg hgt]
      exact ⟨hratio, le_of_not_lt hgt⟩
  · intro d
    unfold stdfracOf
    rcases le_or_lt (d.isstd / d.ismean) 1 with hle | hgt
    · rw [if_neg (not_lt.mpr hle), min_eq_left hle]
    · rw [if_pos hgt, min_eq_right hgt.le]

/-- Witness for C7 at a concrete input whose stdev ratio exceeds 1. -/
theorem get_libraries_stdfrac_clamped_witness :
    (∀ d ∈ [⟨"v_1.fq", "v_2.fq", 300, 300, 400, ⟨0, 100, 0, 0⟩⟩],
      Classifiable d ∧ 0 ≤ Dataset.isstd d ∧ 0 < Dataset.ismean d)
    ∧ (∀ ls, get_libraries [⟨"v_1.fq", "v_2.fq", 300, 300, 400, ⟨0, 100, 0, 0⟩⟩]
          = some ls → ∀ s ∈ ls, ∀ f ∈ s.libISStDev, 0 ≤ f ∧ f ≤ 1) :=
  ⟨by decide,
    (get_libraries_stdfrac_clamped
      [⟨"v_1.fq", "v_2.fq", 300, 300, 400, ⟨0, 100, 0, 0⟩⟩]
      (by decide) (by decide)).1⟩

/-- C10: classification is total exactly under the implicit preconditions
that every dataset has a positive orientation-count total and a nonzero
mean insert; a dataset with all-zero counts or zero mean makes the run
fail with a division error (modelled as `none`) instead of being
skipped. -/
theorem get_libraries_totality (libdata : List Dataset)
    (h : ∀ d ∈ libdata, Classifiable d) :
    (get_libraries libdata).isSome = true
    ∧ get_libraries [⟨"z_1.fq", "z_2.fq", 300, 300, 30, ⟨0, 0, 0, 0⟩⟩] = none
    ∧ get_libraries [⟨"m_1.fq", "m_2.fq", 0, 0, 0, ⟨0, 100, 0, 0⟩⟩] = none := by
  refine ⟨?_, ?_, ?_⟩
  · rw [get_libraries_eq libdata h]
    rfl
  · unfold get_libraries
    rw [show sortByMean [(⟨"z_1.fq", "z_2.fq", 300, 300, 30, ⟨0, 0, 0, 0⟩⟩ : Dataset)]
          = [⟨"z_1.fq", "z_2.fq", 300, 300, 30, ⟨0, 0, 0, 0⟩⟩]
        from List.mergeSort_singleton _]
    dsimp only
    unfold addLib get_orientation
    simp [Pairs.total]
  · unfold get_libraries
    rw [show sortByMean [(⟨"m_1.fq", "m_2.fq", 0, 0, 0, ⟨0, 100, 0, 0⟩⟩ : Dataset)]
          = [⟨"m_1.fq", "m_2.fq", 0, 0, 0, ⟨0, 100, 0, 0⟩⟩]
        from List.mergeSort_singleton _]
    dsimp only
    unfold addLib get_orientation
    simp [Pairs.total]

/-- Witness for C10 at a concrete classifiable input. -/
theorem get_libraries_totality_witness :
    (∀ d ∈ [dsB], Classifiable d) ∧ (get_libraries [dsB]).isSome = true :=
  ⟨by decide, (get_libraries_totality [dsB] (by decide)).1⟩

/-- One external scaffolder invocation of `run_scaffolding`: the assembly
file handed to `fastq2sspace` (`open(pout)`), the output prefix
`out = outdir/_sspace.<set>.<round>`, and the 1-based set and round
indices.  After the call the pipeline's current artifact becomes
`out + ".fa"`, a link to the scaffolds the invocation produced. -/
structure Invocation where
  input : String
  out : String
  setIdx : ℕ
  roundIdx : ℕ
  deriving Repr, DecidableEq

/-- The artifact an invocation leaves behind (`pout = out+".fa"`). -/
def Invocation.artifact (v : Invocation) : String := v.out ++ ".fa"

/-- The output prefix `os.path.join(outdir, "_sspace.%s.%s" % (i, j))`. -/
def sspaceOut (outdir : String) (i j : ℕ) : String :=
  outdir ++ "/_sspace." ++ toString i ++ "." ++ toString j

/-- The inner `for j in range(1, iters+1)` loop of `run_scaffolding` for
set number `i` (1-based): `j` is the next round number, `k` the number of
rounds still to run, `pout` the current artifact.  Returns the invocation
trace and the final artifact. -/
def sspaceRounds (outdir : String) (i : ℕ) : ℕ → ℕ → String → List Invocation × String
  | _, 0, pout => ([], pout)
  | j, k + 1, pout =>
    let out := sspaceOut outdir i j
    let pout2 := out ++ ".fa"
    let rest := sspaceRounds outdir i (j + 1) k pout2
    (⟨pout, out, i, j⟩ :: rest.1, rest.2)

/-- The outer `while i < len(libraries)` loop of `run_scaffolding`.  After
each set's rounds the library classification is re-derived from the newly
produced assembly; `reclass` abstracts that external re-estimation
(`get_libraries` applied to the statistics the aligner reports against the
current artifact).  The loop is modelled with explicit `fuel` because the
re-classification may change the number of sets and the Python loop has no
intrinsic structural bound. -/
def scaffoldLoop (reclass : String → List LibSet) (outdir : String) (iters : ℕ) :
    ℕ → ℕ → List LibSet → String → List Invocation × String
  | 0, _, _, pout => ([], pout)
  | fuel + 1, i, libraries, pout =>
    if i < libraries.length then
      let rounds := sspaceRounds outdir (i + 1) 1 iters pout
      let libraries2 := reclass rounds.2
      let rest := scaffoldLoop reclass outdir iters fuel (i + 1) libraries2 rounds.2
      (rounds.1 ++ rest.1, rest.2)
    else ([], pout)

/-- `run_scaffolding(outdir, scaffoldsFname, fastq, libraries,
reducedFname, ...)`: iterate all library sets starting from the reduced
assembly.  The final `symlink(pout, scaffoldsFname)` is reflected in the
second component (the artifact the canonical scaffolds name is linked
to). -/
def run_scaffolding (reclass : String → List LibSet) (outdir : String)
    (iters : ℕ) (libraries : List LibSet) (reducedFname : String)
    (fuel : ℕ) : List Invocation × String :=
  scaffoldLoop reclass outdir iters fuel 0 libraries reducedFname

/-- Strict sequential chaining: the first invocation consumes `p`, every
later invocation consumes the artifact of its predecessor. -/
def Chained : String → List Invocation → Prop
  | _, [] => True
  | p, v :: rest => v.input = p ∧ Chained v.artifact rest

/-- The artifact current after replaying a trace from artifact `p`. -/
def finalArtifact (p : String) (l : List Invocation) : String :=
  l.foldl (fun _ v => v.artifact) p

theorem finalArtifact_nil (p : String) : finalArtifact p [] = p := rfl

theorem finalArtifact_cons (p : String) (v : Invocation) (l : List Invocation) :
    finalArtifact p (v :: l) = finalArtifact v.artifact l := rfl

theorem chained_append (l1 : List Invocation) :
    ∀ (l2 : List Invocation) (p : String),
      Chained p (l1 ++ l2) ↔ Chained p l1 ∧ Chained (finalArtifact p l1) l2 := by
  induction l1 with
  | nil => simp [Chained, finalArtifact_nil]
  | cons v l1 ih =>
    intro l2 p
    simp only [List.cons_append, Chained, finalArtifact_cons, List.append_eq,
      ih l2 v.artifact, and_assoc]

theorem sspaceRounds_spec (outdir : String) (i : ℕ) :
    ∀ (k j : ℕ) (pout : String),
      (sspaceRounds outdir i j k pout).1.length = k
      ∧ Chained pout (sspaceRounds outdir i j k pout).1
      ∧ (sspaceRounds outdir i j k pout).1.map (fun v => (v.setIdx, v.roundIdx))
          = (List.range k).map (fun t => (i, j + t))
      ∧ (sspaceRounds outdir i j k pout).2
          = finalArtifact pout (sspaceRounds outdir i j k pout).1
  | 0, j, pout => by simp [sspaceRounds, Chained, finalArtifact_nil]
  | k + 1, j, pout => by
    obtain ⟨h1, h2, h3, h4⟩ :=
      sspaceRounds_spec outdir i k (j + 1) (sspaceOut outdir i j ++ ".fa")
    simp only [sspaceRounds]
    refine ⟨by simp [h1], ⟨rfl, h2⟩, ?_, ?_⟩
    · rw [List.map_cons, h3, List.range_succ_eq_map]
      rw [List.map_cons, List.map_map]
      have hz : j + 0 = j := by omega
      rw [hz]
      refine congrArg₂ _ rfl ?_
      apply List.map_congr_left
      intro t _
      show (i, j + 1 + t) = (i, j + (t + 1))
      refine congrArg₂ _ rfl (by omega)
    · rw [finalArtifact_cons]
      exact h4

/-- When every re-classification reports `n` library sets, the outer loop
visits exactly the sets `i+1 .. n` and runs `iters` chained rounds for
each. -/
theorem scaffoldLoop_spec (reclass : String → List LibSet) (outdir : String)
    (iters n : ℕ) (hr : ∀ s, (reclass s).length = n) :
    ∀ (fuel i : ℕ) (libs : List LibSet) (pout : String),
      libs.length = n → fuel = n - i →
      (scaffoldLoop reclass outdir iters fuel i libs pout).1.length = (n - i) * iters
      ∧ Chained pout (scaffoldLoop reclass outdir iters fuel i libs pout).1
  | 0, i, libs, pout, _hlen, hfuel => by
    have hz : n - i = 0 := by omega
    simp [scaffoldLoop, hz, Chained]
  | fuel + 1, i, libs, pout, hlen, hfuel => by
    have hi : i < libs.length := by omega
    simp only [scaffoldLoop, if_pos hi]
    obtain ⟨r1, r2, _r3, r4⟩ := sspaceRounds_spec outdir (i + 1) iters 1 pout
    obtain ⟨s1, s2⟩ := scaffoldLoop_spec reclass outdir iters n hr fuel (i + 1)
      (reclass (sspaceRounds outdir (i + 1) 1 iters pout).2)
      (sspaceRounds outdir (i + 1) 1 iters pout).2 (hr _) (by omega)
    constructor
    · rw [List.length_append, r1, s1]
      have hsplit : n - i = (n - (i + 1)) + 1 := by omega
      rw [hsplit]
      ring
    · rw [chained_append]
      refine ⟨r2, ?_⟩
      rw [← r4]
      exact s2

/-- C2: a run of the Scaffolding Iterator over `n` library sets with
`iters` rounds per set performs exactly `n * iters` external scaffolder
invocations, strictly sequentially, each consuming the previous round's
output artifact (the stage input for the very first round); with 2 library
sets and 2 iterations per set this is exactly 4 invocations in order
(1,1),(1,2),(2,1),(2,2).  The count-preservation hypothesis `hr` states
that the re-classification performed after each set (an external
statistics re-estimation) keeps reporting `n` sets. -/
theorem run_scaffolding_invocations (reclass : String → List LibSet)
    (outdir reducedFname : String) (iters n : ℕ) (libraries : List LibSet)
    (hlen : libraries.length = n) (hr : ∀ s, (reclass s).length = n) :
    (run_scaffolding reclass outdir iters libraries reducedFname n).1.length
        = n * iters
    ∧ Chained reducedFname
        (run_scaffolding reclass outdir iters libraries reducedFname n).1
    ∧ (run_scaffolding (fun _ => [emptyLib, emptyLib]) "out" 2
          [emptyLib, emptyLib] "reduced.fa" 2).1.map
        (fun v => (v.setIdx, v.roundIdx)) = [(1, 1), (1, 2), (2, 1), (2, 2)]
    ∧ (run_scaffolding (fun _ => [emptyLib, emptyLib]) "out" 2
          [emptyLib, emptyLib] "reduced.fa" 2).1.length = 4 := by
  obtain ⟨h1, h2⟩ := scaffoldLoop_spec reclass outdir iters n hr n 0 libraries
    reducedFname hlen (by omega)
  exact ⟨by simpa using h1, h2, by decide, by decide⟩

/-- Witness for C2 at the concrete 2-set, 2-iteration instance. -/
theorem run_scaffolding_invocations_witness :
    (([emptyLib, emptyLib] : List LibSet).length = 2
      ∧ ∀ s : String, ((fun _ => [emptyLib, emptyLib]) s : List LibSet).length = 2)
    ∧ (run_scaffolding (fun _ => [emptyLib, emptyLib]) "out" 2
        [emptyLib, emptyLib] "reduced.fa" 2).1.length = 2 * 2 :=
  ⟨⟨rfl, fun _ => rfl⟩,
    (run_scaffolding_invocations (fun _ => [emptyLib, emptyLib]) "out"
      "reduced.fa" 2 2 [emptyLib, emptyLib] rfl (fun _ => rfl)).1⟩

/-- One `[LIB]` block of the SOAPdenovo2 config emitted by
`prepare_gapcloser`: `avg_ins`, `reverse_seq`, the 1-based `rank`, and the
two filtered read files `q1`/`q2` (the fixed `asm_flags=3`,
`pair_num_cutoff=5` and `map_len=35` fields carry no information). -/
structure GCEntry where
  avg_ins : ℤ
  reverse_seq : ℕ
  rank : ℕ
  q1 : String
  q2 : String
  deriving Repr, DecidableEq

/-- The output name `filter_reads` gives the filtered copy of `fq`:
`outdir/_gapcloser.<i>.<basename(fq)>.fq` (file names stand in for their
basenames). -/
def filterName (outdir : String) (i : ℕ) (fq : String) : String :=
  outdir ++ "/_gapcloser." ++ toString i ++ "." ++ fq ++ ".fq"

/-- `zip(libFs, libRs, orientations, libIS, libISStDev)`. -/
def zip5 : List String → List String → List String → List ℤ → List ℚ →
    List (String × String × String × ℤ × ℚ)
  | f :: fs, r :: rs, o :: os, s :: ss, v :: vs =>
    (f, r, o, s, v) :: zip5 fs rs os ss vs
  | _, _, _, _, _ => []

/-- The `for i, (fq1, fq2, orient, iSize, iFrac) in enumerate(zip(...), 1)`
loop of `prepare_gapcloser`: FR libraries get `reverse_seq=0`, RF get
`reverse_seq=1`, every other orientation is skipped (with a diagnostic)
via `continue`. -/
def gcEntries (outdir : String) : ℕ → List (String × String × String × ℤ × ℚ) →
    List GCEntry
  | _, [] => []
  | i, (fq1, fq2, orient, iSize, _iFrac) :: rest =>
    if orient = "FR" then
      ⟨iSize, 0, i, filterName outdir i fq1, filterName outdir i fq2⟩
        :: gcEntries outdir (i + 1) rest
    else if orient = "RF" then
      ⟨iSize, 1, i, filterName outdir i fq1, filterName outdir i fq2⟩
        :: gcEntries outdir (i + 1) rest
    else gcEntries outdir (i + 1) rest

/-- `prepare_gapcloser(outdir, mapq, configFn, libFs, libRs, orientations,
libIS, libISStDev, minlen, maxlen, limit, verbose)`: the config starts
with the `max_rd_len` line, gains one `[LIB]` block per eligible library,
and is written (returning truthily) only when some library passed the
filter — `len(config) > 1` counts the header line.  `none` is the
fall-through `return None`, the "skip this set" signal. -/
def prepare_gapcloser (outdir : String) (maxlen : ℕ)
    (libFs libRs orients : List String) (libIS : List ℤ)
    (libISStDev : List ℚ) : Option (ℕ × List GCEntry) :=
  let config := gcEntries outdir 1 (zip5 libFs libRs orients libIS libISStDev)
  if 1 < config.length + 1 then some (maxlen, config) else none

theorem gcEntries_reverse_seq (outdir : String) :
    ∀ (Os : List String) (i : ℕ) (Fs Rs : List String) (IS : List ℤ)
      (SD : List ℚ),
      Fs.length = Os.length → Rs.length = Os.length → IS.length = Os.length →
      SD.length = Os.length →
      (gcEntries outdir i (zip5 Fs Rs Os IS SD)).map GCEntry.reverse_seq
        = (Os.filter (fun o => o = "FR" || o = "RF")).map
            (fun o => if o = "FR" then (0 : ℕ) else 1)
  | [], i, Fs, Rs, IS, SD => by
    intro h1 h2 h3 h4
    simp only [List.length_nil, List.length_eq_zero] at h1 h2 h3 h4
    subst h1; subst h2; subst h3; subst h4
    rfl
  | o :: Os, i, Fs, Rs, IS, SD => by
    intro h1 h2 h3 h4
    cases Fs with
    | nil => simp at h1
    | cons f Fs =>
      cases Rs with
      | nil => simp at h2
      | cons r Rs =>
        cases IS with
        | nil => simp at h3
        | cons s IS =>
          cases SD with
          | nil => simp at h4
          | cons v SD =>
            simp only [List.length_cons, Nat.add_right_cancel_iff] at h1 h2 h3 h4
            have ih := gcEntries_reverse_seq outdir Os (i + 1) Fs Rs IS SD h1 h2 h3 h4
            show (gcEntries outdir i ((f, r, o, s, v) :: zip5 Fs Rs Os IS SD)).map
                GCEntry.reverse_seq = _
            unfold gcEntries
            by_cases hfr : o = "FR"
            · rw [if_pos hfr, List.map_cons, ih]
              rw [List.filter_cons_of_pos (by simp [hfr])]
              rw [List.map_cons, if_pos hfr]
            · rw [if_neg hfr]
              by_cases hrf : o = "RF"
              · rw [if_pos hrf, List.map_cons, ih]
                rw [List.filter_cons_of_pos (by simp [hrf])]
                rw [List.map_cons, if_neg hfr]
              · rw [if_neg hrf, ih]
                rw [List.filter_cons_of_neg (by simp [hfr, hrf])]

/-- C5: the Gap-Closing Config Builder returns a config artifact iff at
least one library of the set has orientation FR or RF; FR maps to
`reverse_seq=0` and RF to `reverse_seq=1`, other orientations are skipped
and zero eligible libraries yield no artifact (a normal outcome, not an
error — the builder is total).  Scenario: one FR and one RR library
produce a config holding exactly the FR entry with `reverse_seq=0`. -/
theorem prepare_gapcloser_eligible (outdir : String) (maxlen : ℕ)
    (libFs libRs orients : List String) (libIS : List ℤ) (libISStDev : List ℚ)
    (h1 : libFs.length = orients.length) (h2 : libRs.length = orients.length)
    (h3 : libIS.length = orients.length) (h4 : libISStDev.length = orients.length) :
    ((prepare_gapcloser outdir maxlen libFs libRs orients libIS libISStDev).isSome
      ↔ ∃ o ∈ orients, o = "FR" ∨ o = "RF")
    ∧ (∀ cfg, prepare_gapcloser outdir maxlen libFs libRs orients libIS libISStDev
          = some cfg →
        cfg.2.map GCEntry.reverse_seq
          = (orients.filter (fun o => o = "FR" || o = "RF")).map
              (fun o => if o = "FR" then (0 : ℕ) else 1))
    ∧ prepare_gapcloser "out" 150 ["a_1.fq", "b_1.fq"] ["a_2.fq", "b_2.fq"]
        ["FR", "RR"] [300, 3000] [1/10, 1/5]
        = some (150, [⟨300, 0, 1, "out/_gapcloser.1.a_1.fq.fq",
                       "out/_gapcloser.1.a_2.fq.fq"⟩]) := by
  have hmap := gcEntries_reverse_seq outdir orients 1 libFs libRs libIS libISStDev
    h1 h2 h3 h4
  refine ⟨?_, ?_, by decide⟩
  · unfold prepare_gapcloser
    have hlen : (gcEntries outdir 1 (zip5 libFs libRs orients libIS libISStDev)).length
        = ((orients.filter (fun o => o = "FR" || o = "RF")).map
            (fun o => if o = "FR" then (0 : ℕ) else 1)).length := by
      rw [← hmap, List.length_map]
    rw [List.length_map] at hlen
    by_cases hne : ∃ o ∈ orients, o = "FR" ∨ o = "RF"
    · have : (orients.filter (fun o => o = "FR" || o = "RF")) ≠ [] := by
        rcases hne with ⟨o, ho, hor⟩
        intro hnil
        have := List.filter_eq_nil_iff.mp hnil o ho
        simp only [Bool.or_eq_true, decide_eq_true_eq] at this
        exact this hor
      have hpos : 0 < (orients.filter (fun o => o = "FR" || o = "RF")).length :=
        List.length_pos.mpr this
      rw [if_pos (by omega)]
      simpa using hne
    · have : (orients.filter (fun o => o = "FR" || o = "RF")) = [] := by
        rw [List.filter_eq_nil_iff]
        intro o ho
        simp only [Bool.or_eq_true, decide_eq_true_eq]
        intro hor
        exact hne ⟨o, ho, hor⟩
      rw [this] at hlen
      simp only [List.length_nil] at hlen
      rw [if_neg (by omega)]
      simpa using hne
  · intro cfg hcfg
    unfold prepare_gapcloser at hcfg
    by_cases hc : 1 < (gcEntries outdir 1 (zip5 libFs libRs orients libIS libISStDev)).length + 1
    · rw [if_pos hc] at hcfg
      injection hcfg with hcfg
      subst hcfg
      exact hmap
    · rw [if_neg hc] at hcfg
      exact absurd hcfg (by simp)

/-- Witness for C5 at the concrete FR + RR library set. -/
theorem prepare_gapcloser_eligible_witness :
    ((["a_1.fq", "b_1.fq"] : List String).length = (["FR", "RR"] : List String).length
      ∧ (["a_2.fq", "b_2.fq"] : List String).length = (["FR", "RR"] : List String).length
      ∧ ([(300 : ℤ), 3000]).length = (["FR", "RR"] : List String).length
      ∧ ([(1 : ℚ)/10, 1/5]).length = (["FR", "RR"] : List String).length)
    ∧ ((prepare_gapcloser "out" 150 ["a_1.fq", "b_1.fq"] ["a_2.fq", "b_2.fq"]
          ["FR", "RR"] [300, 3000] [1/10, 1/5]).isSome
        ↔ ∃ o ∈ (["FR", "RR"] : List String), o = "FR" ∨ o = "RF") :=
  ⟨⟨rfl, rfl, rfl, rfl⟩,
    (prepare_gapcloser_eligible "out" 150 ["a_1.fq", "b_1.fq"] ["a_2.fq", "b_2.fq"]
      ["FR", "RR"] [300, 3000] [1/10, 1/5] rfl rfl rfl rfl).1⟩

/-- `get_read_limit(fastq, fasta, mapq, threads, readLimit, verbose)`: the
number of mates to align per library, `int(readLimit * fastaSize)` when a
read-fraction limit is configured, else 0 (the values in play are
nonnegative, so Python `int(...)` truncation is the floor). -/
def get_read_limit (readLimit : ℚ) (fastaSize : ℤ) : ℤ :=
  if readLimit = 0 then 0 else ⌊readLimit * fastaSize⌋

/-- The cap on pairs actually passed by `get_libraries` to the statistics
collaborator (`fastq2insert_size`): the read limit is floored at
`10e5 = 10^6` (`if not limit or limit<10e5: limit = 10e5`) and the
collaborator receives `limit/100` — one percent of it.  In the floor
branch the limit is the float `10e5`, so the division is exact; in the
other branch the limit is a Python int, so the division floors. -/
def get_libraries_cap (limit : ℤ) : ℚ :=
  if limit = 0 ∨ limit < 10 ^ 6 then (10 ^ 6 : ℚ) / 100
  else ((limit / 100 : ℤ) : ℚ)

/-- C4 counterexample: with no read-fraction limit configured, the cap
passed to the statistics collaborator is 10^4 pairs, not a fixed floor of
at least 10^6 — the 10^6 floor applies to the read limit, and the
collaborator receives one percent of it. -/
theorem get_libraries_cap_small :
    get_libraries_cap (get_read_limit 0 (10 ^ 9)) = 10 ^ 4
    ∧ ¬ ((10 ^ 6 : ℚ) ≤ get_libraries_cap (get_read_limit 0 (10 ^ 9))) := by
  constructor <;> norm_num [get_read_limit, get_libraries_cap]

/-- C4 (amended): the pair cap handed to the statistics collaborator is
one hundredth of the effective read limit, where the effective limit is
the configured assembly-size-derived limit when that is at least 10^6 and
the fixed floor 10^6 otherwise; in particular the cap is 10^4 — not
≥ 10^6 — when no read-fraction limit is configured. -/
theorem get_libraries_cap_amended (limit : ℤ) (rl : ℚ) (sz : ℤ) (hrl : rl ≠ 0) :
    get_libraries_cap limit = ((max limit (10 ^ 6) / 100 : ℤ) : ℚ)
    ∧ get_read_limit rl sz = ⌊rl * sz⌋
    ∧ get_read_limit 0 sz = 0
    ∧ get_libraries_cap (get_read_limit 0 sz) = 10 ^ 4
    ∧ (10 ^ 4 : ℚ) ≤ get_libraries_cap limit := by
  have hcap : get_libraries_cap limit = ((max limit (10 ^ 6) / 100 : ℤ) : ℚ) := by
    unfold get_libraries_cap
    by_cases hc : limit = 0 ∨ limit < 10 ^ 6
    · rw [if_pos hc]
      have hmax : max limit (10 ^ 6) = 10 ^ 6 := by
        rcases hc with hc | hc
        · rw [max_eq_right (by omega : limit ≤ 10 ^ 6)]
        · rw [max_eq_right (by omega : limit ≤ 10 ^ 6)]
      rw [hmax]
      norm_num
    · rw [if_neg hc]
      push_neg at hc
      have hmax : max limit (10 ^ 6) = limit := max_eq_left hc.2
      rw [hmax]
  refine ⟨hcap, ?_, ?_, ?_, ?_⟩
  · unfold get_read_limit
    rw [if_neg hrl]
  · unfold get_read_limit
    rw [if_pos rfl]
  · unfold get_read_limit get_libraries_cap
    rw [if_pos rfl, if_pos (Or.inl rfl)]
    norm_num
  · rw [hcap]
    have hdiv : (10 ^ 4 : ℤ) ≤ max limit (10 ^ 6) / 100 := by
      have h1 : (10 ^ 6 : ℤ) ≤ max limit (10 ^ 6) := le_max_right _ _
      have h2 : (10 ^ 6 : ℤ) / 100 ≤ max limit (10 ^ 6) / 100 :=
        Int.ediv_le_ediv (by norm_num) h1
      omega
    exact_mod_cast hdiv

/-- Witness for C4 (amended) at a concrete configured fraction. -/
theorem get_libraries_cap_amended_witness :
    ((5 : ℚ) ≠ 0)
    ∧ get_libraries_cap 0 = ((max 0 (10 ^ 6) / 100 : ℤ) : ℚ) :=
  ⟨by decide, (get_libraries_cap_amended 0 5 (10 ^ 9) (by decide)).1⟩

/-- An entry of the modelled filesystem: a regular file carrying an
abstract content id, a symbolic link, or a directory. -/
inductive FsEntry where
  | file (cid : ℕ)
  | link (target : String)
  | dir
  deriving Repr, DecidableEq

/-- The filesystem as an association list from absolute path to entry,
newest entry first.  The pipeline only creates entries at fresh paths, so
every link points into the strictly older suffix of the list. -/
abbrev FS := List (String × FsEntry)

/-- Resolve a path through link chains to the content id of the regular
file it denotes; `none` for missing paths, directories and broken links.
Because links always point at older entries, resolution structurally
descends the list. -/
def resolve : FS → String → Option ℕ
  | [], _ => none
  | (q, e) :: fs, p =>
    if q = p then
      match e with
      | FsEntry.file c => some c
      | FsEntry.link t => resolve fs t
      | FsEntry.dir => none
    else resolve fs p

/-- `os.path.isfile`: the path resolves (following links) to a regular
file. -/
def isfile (fs : FS) (p : String) : Bool := (resolve fs p).isSome

/-- `os.path.isdir`. -/
def isdir : FS → String → Bool
  | [], _ => false
  | (q, e) :: fs, p =>
    if q = p then
      match e with
      | FsEntry.dir => true
      | _ => false
    else isdir fs p

/-- The first entry recorded at a path. -/
def lookupFS : FS → String → Option FsEntry
  | [], _ => none
  | (q, e) :: fs, p => if q = p then some e else lookupFS fs p

/-- `symlink(file1, file2)` of redundans.py: create the link only when
`file2` is not already an existing file.  Paths are modelled as already
absolute, so the `realpath` branch collapses into a single link
creation. -/
def symlink (file1 file2 : String) (fs : FS) : FS :=
  if isfile fs file2 then fs else (file2, FsEntry.link file1) :: fs

/-- `contigs.fa`, the canonical input-assembly artifact. -/
def contigsName (outdir : String) : String := outdir ++ "/contigs.fa"

/-- `contigs.reduced.fa`, the canonical reduction artifact. -/
def reducedName (outdir : String) : String := outdir ++ "/contigs.reduced.fa"

/-- `scaffolds.fa`, the canonical scaffolding artifact. -/
def scaffoldsName (outdir : String) : String := outdir ++ "/scaffolds.fa"

/-- `scaffolds.filled.fa`, the canonical gap-closing artifact. -/
def nogapsName (outdir : String) : String := outdir ++ "/scaffolds.filled.fa"

/-- The artifact wiring of `redundants(...)`: refuse a pre-existing output
directory with exit code 1 (the error carries the untouched filesystem),
else create the directory, link the input assembly to the canonical
`contigs` name, then per stage either record the externally produced
artifact (abstracted as a fresh content id at the canonical name) or
forward the previous stage's artifact by symlink.  Gap closing runs only
when enabled and the classification in scope is nonempty
(`if gapclosing and libraries`). -/
def redundants (fastaFname outdir : String)
    (reduction scaffolding gapclosing libsNonempty : Bool)
    (cReduced cScaffolds cNogaps : ℕ) (fs : FS) : Except (ℕ × FS) FS :=
  if isdir fs outdir then Except.error (1, fs)
  else
    let fs1 := (outdir, FsEntry.dir) :: fs
    let fs2 := symlink fastaFname (contigsName outdir) fs1
    let fs3 := if reduction then (reducedName outdir, FsEntry.file cReduced) :: fs2
               else symlink (contigsName outdir) (reducedName outdir) fs2
    let fs4 := if scaffolding then (scaffoldsName outdir, FsEntry.file cScaffolds) :: fs3
               else symlink (reducedName outdir) (scaffoldsName outdir) fs3
    let fs5 := if gapclosing && libsNonempty
               then (nogapsName outdir, FsEntry.file cNogaps) :: fs4
               else symlink (scaffoldsName outdir) (nogapsName outdir) fs4
    Except.ok fs5

/-- Resolution inside a successful run result. -/
def resolveOk (r : Except (ℕ × FS) FS) (p : String) : Option ℕ :=
  match r with
  | Except.ok fs => resolve fs p
  | Except.error _ => none

/-- First recorded entry inside a successful run result. -/
def lookupOk (r : Except (ℕ × FS) FS) (p : String) : Option FsEntry :=
  match r with
  | Except.ok fs => lookupFS fs p
  | Except.error _ => none

theorem resolve_skip (fs : FS) (p q : String) (e : FsEntry) (h : q ≠ p) :
    resolve ((q, e) :: fs) p = resolve fs p := by
  simp [resolve, h]

theorem isfile_skip (fs : FS) (p q : String) (e : FsEntry) (h : q ≠ p) :
    isfile ((q, e) :: fs) p = isfile fs p := by
  simp [isfile, resolve_skip fs p q e h]

theorem isdir_prepend (fs : FS) (p q : String) (e : FsEntry) (h : q ≠ p) :
    isdir ((q, e) :: fs) p = isdir fs p := by
  simp [isdir, h]

theorem isdir_symlink (fs : FS) (p a b : String) (h : b ≠ p) :
    isdir (symlink a b fs) p = isdir fs p := by
  unfold symlink
  split
  · rfl
  · exact isdir_prepend fs p b (FsEntry.link a) h

/-- C6: whenever a stage is disabled — reduction, scaffolding, or gap
closing (the latter also when the classification in scope is empty) — its
canonical output artifact is a link to its input artifact and resolves to
the same underlying content: contigs forwards to reduced, reduced to
scaffolds, scaffolds to gap-filled. -/
theorem redundants_forwarding (outdir fastaFname : String) (c0 cR cS cG : ℕ)
    (reduction scaffolding gapclosing libsNonempty : Bool) (fs0 : FS)
    (hd : List.Pairwise (· ≠ ·)
      [outdir, fastaFname, contigsName outdir, reducedName outdir,
       scaffoldsName outdir, nogapsName outdir])
    (hdir : isdir fs0 outdir = false)
    (hfa : resolve fs0 fastaFname = some c0)
    (hfc : isfile fs0 (contigsName outdir) = false)
    (hfr : isfile fs0 (reducedName outdir) = false)
    (hfs : isfile fs0 (scaffoldsName outdir) = false)
    (hfg : isfile fs0 (nogapsName outdir) = false) :
    resolveOk (redundants fastaFname outdir reduction scaffolding gapclosing
        libsNonempty cR cS cG fs0) (contigsName outdir) = some c0
    ∧ (reduction = false →
        resolveOk (redundants fastaFname outdir reduction scaffolding gapclosing
            libsNonempty cR cS cG fs0) (reducedName outdir)
          = resolveOk (redundants fastaFname outdir reduction scaffolding gapclosing
              libsNonempty cR cS cG fs0) (contigsName outdir)
        ∧ lookupOk (redundants fastaFname outdir reduction scaffolding gapclosing
            libsNonempty cR cS cG fs0) (reducedName outdir)
          = some (FsEntry.link (contigsName outdir)))
    ∧ (scaffolding = false →
        resolveOk (redundants fastaFname outdir reduction scaffolding gapclosing
            libsNonempty cR cS cG fs0) (scaffoldsName outdir)
          = resolveOk (redundants fastaFname outdir reduction scaffolding gapclosing
              libsNonempty cR cS cG fs0) (reducedName outdir)
        ∧ lookupOk (redundants fastaFname outdir reduction scaffolding gapclosing
            libsNonempty cR cS cG fs0) (scaffoldsName outdir)
          = some (FsEntry.link (reducedName outdir)))
    ∧ ((gapclosing && libsNonempty) = false →
        resolveOk (redundants fastaFname outdir reduction scaffolding gapclosing
            libsNonempty cR cS cG fs0) (nogapsName outdir)
          = resolveOk (redundants fastaFname outdir reduction scaffolding gapclosing
              libsNonempty cR cS cG fs0) (scaffoldsName outdir)
        ∧ lookupOk (redundants fastaFname outdir reduction scaffolding gapclosing
            libsNonempty cR cS cG fs0) (nogapsName outdir)
          = some (FsEntry.link (scaffoldsName outdir))) := by
  have hd2 := hd
  simp at hd2
  obtain ⟨⟨h1, h2, h3, h4, h5⟩, ⟨h6, h7, h8, h9⟩, ⟨h10, h11, h12⟩, ⟨h13, h14⟩, h15⟩ := hd2
  cases reduction <;> cases scaffolding <;> cases gapclosing <;> cases libsNonempty <;>
    simp_all [redundants, symlink, resolve, isfile, lookupFS, resolveOk, lookupOk,
      Ne.symm h2, Ne.symm h3, Ne.symm h4, Ne.symm h5, Ne.symm h6, Ne.symm h10,
      Ne.symm h11, Ne.symm h12, Ne.symm h13, Ne.symm h14, Ne.symm h15]

/-- Witness for C6 at a concrete run with reduction and gap closing
forwarded. -/
theorem redundants_forwarding_witness :
    (List.Pairwise (· ≠ ·)
      ["run", "genome.fa", contigsName "run", reducedName "run",
       scaffoldsName "run", nogapsName "run"]
      ∧ isdir [("genome.fa", FsEntry.file 7)] "run" = false
      ∧ resolve [("genome.fa", FsEntry.file 7)] "genome.fa" = some 7
      ∧ isfile [("genome.fa", FsEntry.file 7)] (contigsName "run") = false
      ∧ isfile [("genome.fa", FsEntry.file 7)] (reducedName "run") = false
      ∧ isfile [("genome.fa", FsEntry.file 7)] (scaffoldsName "run") = false
      ∧ isfile [("genome.fa", FsEntry.file 7)] (nogapsName "run") = false)
    ∧ resolveOk (redundants "genome.fa" "run" false true true false 21 22 23
        [("genome.fa", FsEntry.file 7)]) (contigsName "run") = some 7 :=
  ⟨⟨by decide, by decide, by decide, by decide, by decide, by decide, by decide⟩,
    (redundants_forwarding "run" "genome.fa" 7 21 22 23 false true true false
      [("genome.fa", FsEntry.file 7)] (by decide) (by decide) (by decide)
      (by decide) (by decide) (by decide) (by decide)).1⟩

/-- C9: a pre-existing output directory makes the pipeline fail fast with
exit code 1 before any stage runs and with the filesystem unchanged (the
error carries the input filesystem as is); in particular a second run
against the output directory a first run created fails this way. -/
theorem redundants_outdir_exists (outdir fastaFname : String) (cR cS cG : ℕ)
    (reduction scaffolding gapclosing libsNonempty : Bool) (fs0 : FS)
    (hd : List.Pairwise (· ≠ ·)
      [outdir, contigsName outdir, reducedName outdir,
       scaffoldsName outdir, nogapsName outdir]) :
    (∀ fs : FS, isdir fs outdir = true →
      redundants fastaFname outdir reduction scaffolding gapclosing
          libsNonempty cR cS cG fs
        = Except.error (1, fs))
    ∧ (∀ fs1 : FS,
        redundants fastaFname outdir reduction scaffolding gapclosing
            libsNonempty cR cS cG fs0
          = Except.ok fs1 →
        redundants fastaFname outdir reduction scaffolding gapclosing
            libsNonempty cR cS cG fs1
          = Except.error (1, fs1)) := by
  have hd2 := hd
  simp at hd2
  obtain ⟨⟨h1, h2, h3, h4⟩, -⟩ := hd2
  constructor
  · intro fs h
    unfold redundants
    rw [if_pos h]
  · intro fs1 hrun
    by_cases hdir0 : isdir fs0 outdir = true
    · unfold redundants at hrun
      rw [if_pos hdir0] at hrun
      exact absurd hrun (by simp)
    · unfold redundants at hrun
      rw [if_neg hdir0] at hrun
      injection hrun with hrun
      subst hrun
      cases reduction <;> cases scaffolding <;> cases gapclosing <;>
        cases libsNonempty <;>
        simp_all [redundants, isdir_symlink, isdir_prepend, isdir,
          Ne.symm h1, Ne.symm h2, Ne.symm h3, Ne.symm h4]

/-- Witness for C9 at a concrete output directory. -/
theorem redundants_outdir_exists_witness :
    (List.Pairwise (· ≠ ·)
      ["run", contigsName "run", reducedName "run",
       scaffoldsName "run", nogapsName "run"]
      ∧ isdir [("run", FsEntry.dir)] "run" = true)
    ∧ redundants "genome.fa" "run" true true true true 21 22 23
        [("run", FsEntry.dir)]
      = Except.error (1, [("run", FsEntry.dir)]) :=
  ⟨⟨by decide, by decide⟩,
    (redundants_outdir_exists "run" "genome.fa" 21 22 23 true true true true
      [] (by decide)).1 [("run", FsEntry.dir)] (by decide)⟩

end Redundans
